import Mathlib

/-!
Shallow embedding of `src/lnd-exporter.py` (an LND REST → Prometheus metrics
exporter) and proofs about it.

Modelling conventions:
- Python integers are `Nat` (all values in the modelled payloads are
  non-negative counts and 64-bit channel ids); bit operations keep the
  source's shift/mask structure.
- Python dicts obtained from `json.loads` are association lists with
  distinct keys; `dict[k]` and `dict.get(k, d)` are modelled on them.
- Fallible Python code (exceptions) is modelled with `Except`/`Option`.
- Decimal formatting done by Python f-strings on a non-negative integer is
  modelled by `pyDecimal` (standard base-10 rendering, most significant
  digit first).
-/

namespace LndExporter

/-! ### Decimal rendering (Python f-string / str() on a non-negative int) -/

/-- Decimal string of a natural number, most significant digit first, as a
Python f-string renders a non-negative `int`. -/
def pyDecimal (n : Nat) : String :=
  if n = 0 then "0" else (((Nat.digits 10 n).map Nat.digitChar).reverse).asString

/-! ### Short channel id (HTLCCollector.collect, lines 125-126)

`short_id = f"{(chan_id >> 40) & 0xFFFFFF}x{(chan_id >> 16) & 0xFFFFFF}x{chan_id & 0xFFFF}"`
-/

/-- Bits 40-63 of the channel id: `(chan_id >> 40) & 0xFFFFFF`. -/
def scidHeight (chan_id : Nat) : Nat := (chan_id >>> 40) &&& 0xFFFFFF

/-- Bits 16-39 of the channel id: `(chan_id >> 16) & 0xFFFFFF`. -/
def scidTxIndex (chan_id : Nat) : Nat := (chan_id >>> 16) &&& 0xFFFFFF

/-- Bits 0-15 of the channel id: `chan_id & 0xFFFF`. -/
def scidOutputIndex (chan_id : Nat) : Nat := chan_id &&& 0xFFFF

/-- The short-channel-id label string built by `HTLCCollector.collect`. -/
def shortId (chan_id : Nat) : String :=
  pyDecimal (scidHeight chan_id) ++ "x" ++ pyDecimal (scidTxIndex chan_id)
    ++ "x" ++ pyDecimal (scidOutputIndex chan_id)

/-- The spec's description of the same string: block height = bits 40-63,
transaction index = bits 16-39, output index = bits 0-15, expressed with
division and remainder instead of shifts and masks. -/
def shortIdSpec (chan_id : Nat) : String :=
  pyDecimal (chan_id / 2 ^ 40 % 2 ^ 24) ++ "x" ++ pyDecimal (chan_id / 2 ^ 16 % 2 ^ 24)
    ++ "x" ++ pyDecimal (chan_id % 2 ^ 16)

theorem scidHeight_eq_div_mod (c : Nat) : scidHeight c = c / 2 ^ 40 % 2 ^ 24 := by
  have h : (0xFFFFFF : Nat) = 2 ^ 24 - 1 := by norm_num
  rw [scidHeight, h, Nat.and_pow_two_sub_one_eq_mod, Nat.shiftRight_eq_div_pow]

theorem scidTxIndex_eq_div_mod (c : Nat) : scidTxIndex c = c / 2 ^ 16 % 2 ^ 24 := by
  have h : (0xFFFFFF : Nat) = 2 ^ 24 - 1 := by norm_num
  rw [scidTxIndex, h, Nat.and_pow_two_sub_one_eq_mod, Nat.shiftRight_eq_div_pow]

theorem scidOutputIndex_eq_mod (c : Nat) : scidOutputIndex c = c % 2 ^ 16 := by
  have h : (0xFFFF : Nat) = 2 ^ 16 - 1 := by norm_num
  rw [scidOutputIndex, h, Nat.and_pow_two_sub_one_eq_mod]

theorem digitChar_lt_ne_x : ∀ d, d < 10 → Nat.digitChar d ≠ 'x' := by decide

theorem digitChar_lt_inj : ∀ d, d < 10 → ∀ e, e < 10 →
    Nat.digitChar d = Nat.digitChar e → d = e := by decide

theorem map_digitChar_inj (l₁ : List Nat) : ∀ l₂ : List Nat,
    (∀ d ∈ l₁, d < 10) → (∀ d ∈ l₂, d < 10) →
    l₁.map Nat.digitChar = l₂.map Nat.digitChar → l₁ = l₂ := by
  induction l₁ with
  | nil => intro l₂ _ _ h; cases l₂ <;> simp_all
  | cons a t ih =>
    intro l₂ h₁ h₂ h
    cases l₂ with
    | nil => simp at h
    | cons b t₂ =>
      simp only [List.map_cons, List.cons.injEq] at h
      have hab : a = b :=
        digitChar_lt_inj a (h₁ a (by simp)) b (h₂ b (by simp)) h.1
      have ht : t = t₂ :=
        ih t₂ (fun d hd => h₁ d (by simp [hd])) (fun d hd => h₂ d (by simp [hd])) h.2
      simp [hab, ht]

theorem pyDecimal_no_x (n : Nat) : 'x' ∉ (pyDecimal n).toList := by
  unfold pyDecimal
  split
  · decide
  · rw [List.toList_asString]
    intro hmem
    rw [List.mem_reverse, List.mem_map] at hmem
    obtain ⟨d, hd, hdx⟩ := hmem
    exact digitChar_lt_ne_x d (Nat.digits_lt_base (by norm_num) hd) hdx

theorem pyDecimal_inj {m n : Nat} (h : pyDecimal m = pyDecimal n) : m = n := by
  unfold pyDecimal at h
  by_cases hm : m = 0 <;> by_cases hn : n = 0
  · exact hm.trans hn.symm
  · exfalso
    simp only [hm, hn, if_pos, if_neg, if_true, ite_true, ite_false] at h
    have h' : ("0" : String).toList = (((Nat.digits 10 n).map Nat.digitChar).reverse).asString.toList :=
      congrArg String.toList h
    rw [List.toList_asString] at h'
    have hrev : (Nat.digits 10 n).map Nat.digitChar = ['0'] := by
      have := congrArg List.reverse h'
      simpa using this.symm
    have h0 : Nat.digits 10 n = [0] := by
      refine map_digitChar_inj _ [0] (fun d hd => Nat.digits_lt_base (by norm_num) hd)
        (by intro d hd; simp at hd; omega) ?_
      simpa using hrev
    have := Nat.ofDigits_digits 10 n
    rw [h0] at this
    simp [Nat.ofDigits] at this
    exact hn this.symm
  · exfalso
    simp only [hm, hn, ite_true, ite_false] at h
    have h' : (((Nat.digits 10 m).map Nat.digitChar).reverse).asString.toList = ("0" : String).toList :=
      congrArg String.toList h
    rw [List.toList_asString] at h'
    have hrev : (Nat.digits 10 m).map Nat.digitChar = ['0'] := by
      have := congrArg List.reverse h'
      simpa using this
    have h0 : Nat.digits 10 m = [0] := by
      refine map_digitChar_inj _ [0] (fun d hd => Nat.digits_lt_base (by norm_num) hd)
        (by intro d hd; simp at hd; omega) ?_
      simpa using hrev
    have := Nat.ofDigits_digits 10 m
    rw [h0] at this
    simp [Nat.ofDigits] at this
    exact hm this.symm
  · simp only [hm, hn, ite_false] at h
    rw [List.asString_inj] at h
    have hmap : (Nat.digits 10 m).map Nat.digitChar = (Nat.digits 10 n).map Nat.digitChar := by
      have := congrArg List.reverse h
      simpa using this
    have hdig : Nat.digits 10 m = Nat.digits 10 n :=
      map_digitChar_inj _ _ (fun d hd => Nat.digits_lt_base (by norm_num) hd)
        (fun d hd => Nat.digits_lt_base (by norm_num) hd) hmap
    exact Nat.digits_inj_iff.mp hdig

/-- Splitting a character-list concatenation at a separator absent from both
left parts: the separator occurrence is unambiguous. -/
theorem append_sep_inj (c : Char) (l₁ : List Char) : ∀ l₂ r₁ r₂ : List Char,
    c ∉ l₁ → c ∉ l₂ → l₁ ++ c :: r₁ = l₂ ++ c :: r₂ → l₁ = l₂ ∧ r₁ = r₂ := by
  induction l₁ with
  | nil =>
    intro l₂ r₁ r₂ _ h₂ h
    cases l₂ with
    | nil => simpa using h
    | cons b t₂ =>
      exfalso
      simp only [List.nil_append, List.cons_append, List.cons.injEq] at h
      exact h₂ (h.1 ▸ List.mem_cons_self b t₂)
  | cons a t ih =>
    intro l₂ r₁ r₂ h₁ h₂ h
    cases l₂ with
    | nil =>
      exfalso
      simp only [List.cons_append, List.nil_append, List.cons.injEq] at h
      exact h₁ (h.1 ▸ List.mem_cons_self a t)
    | cons b t₂ =>
      simp only [List.cons_append, List.cons.injEq] at h
      have := ih t₂ r₁ r₂ (fun hc => h₁ (List.mem_cons_of_mem a hc))
        (fun hc => h₂ (List.mem_cons_of_mem b hc)) h.2
      exact ⟨by simp [h.1, this.1], this.2⟩

theorem shortId_inj {c₁ c₂ : Nat} (h₁ : c₁ < 2 ^ 64) (h₂ : c₂ < 2 ^ 64)
    (h : shortId c₁ = shortId c₂) : c₁ = c₂ := by
  have hl := congrArg String.toList h
  simp only [shortId, String.toList, String.data_append] at hl
  simp only [show ("x" : String).data = ['x'] from rfl, List.append_assoc,
    List.singleton_append] at hl
  have step1 := append_sep_inj 'x' _ _ _ _ (pyDecimal_no_x _) (pyDecimal_no_x _) hl
  have step2 := append_sep_inj 'x' _ _ _ _ (pyDecimal_no_x _) (pyDecimal_no_x _) step1.2
  have hH : scidHeight c₁ = scidHeight c₂ :=
    pyDecimal_inj (String.toList_inj.mp step1.1)
  have hT : scidTxIndex c₁ = scidTxIndex c₂ :=
    pyDecimal_inj (String.toList_inj.mp step2.1)
  have hO : scidOutputIndex c₁ = scidOutputIndex c₂ :=
    pyDecimal_inj (String.toList_inj.mp step2.2)
  have e₁ := scidHeight_eq_div_mod c₁
  have e₂ := scidHeight_eq_div_mod c₂
  have f₁ := scidTxIndex_eq_div_mod c₁
  have f₂ := scidTxIndex_eq_div_mod c₂
  have g₁ := scidOutputIndex_eq_mod c₁
  have g₂ := scidOutputIndex_eq_mod c₂
  rw [e₁, e₂] at hH
  rw [f₁, f₂] at hT
  rw [g₁, g₂] at hO
  norm_num at hH hT hO h₁ h₂
  omega

/-- C3: for every 64-bit unsigned chan_id, the short-channel-id string is
formatted as height "x" txIndex "x" outputIndex, where height is bits 40-63,
txIndex is bits 16-39 and outputIndex is bits 0-15 of chan_id (div/mod
bit-field form); in particular 0x0000010000020003 decodes to "1x2x3" (see the
witness). -/
theorem shortId_bit_fields (chan_id : Nat) (h : chan_id < 2 ^ 64) :
    shortId chan_id = shortIdSpec chan_id := by
  unfold shortId shortIdSpec
  rw [scidHeight_eq_div_mod, scidTxIndex_eq_div_mod, scidOutputIndex_eq_mod]

theorem shortId_bit_fields_witness :
    (0x0000010000020003 : Nat) < 2 ^ 64 ∧
      shortId 0x0000010000020003 = shortIdSpec 0x0000010000020003 ∧
      shortId 0x0000010000020003 = "1x2x3" := by
  refine ⟨by norm_num, shortId_bit_fields 0x0000010000020003 (by norm_num), ?_⟩
  have h1 : scidHeight 0x0000010000020003 = 1 := by decide
  have h2 : scidTxIndex 0x0000010000020003 = 2 := by decide
  have h3 : scidOutputIndex 0x0000010000020003 = 3 := by decide
  rw [shortId, h1, h2, h3]
  norm_num [pyDecimal, Nat.digits_def']
  rfl

/-- C10: the short-channel-id decomposition is lossless on 64-bit chan_ids:
height * 2^40 + txIndex * 2^16 + outputIndex reconstructs chan_id exactly,
and distinct chan_ids yield distinct scid label strings. -/
theorem shortId_lossless (c₁ c₂ : Nat) (h₁ : c₁ < 2 ^ 64) (h₂ : c₂ < 2 ^ 64) :
    scidHeight c₁ * 2 ^ 40 + scidTxIndex c₁ * 2 ^ 16 + scidOutputIndex c₁ = c₁ ∧
      (shortId c₁ = shortId c₂ → c₁ = c₂) := by
  constructor
  · rw [scidHeight_eq_div_mod, scidTxIndex_eq_div_mod, scidOutputIndex_eq_mod]
    norm_num at h₁ ⊢
    omega
  · exact shortId_inj h₁ h₂

theorem shortId_lossless_witness :
    scidHeight 0x0000010000020003 * 2 ^ 40 + scidTxIndex 0x0000010000020003 * 2 ^ 16 +
        scidOutputIndex 0x0000010000020003 = 0x0000010000020003 ∧
      (shortId 0x0000010000020003 = shortId 0x0000010000020004 →
        0x0000010000020003 = 0x0000010000020004) :=
  ⟨(shortId_lossless 0x0000010000020003 0x0000010000020004 (by norm_num) (by norm_num)).1,
   (shortId_lossless 0x0000010000020003 0x0000010000020004 (by norm_num) (by norm_num)).2⟩

/-! ### Python string primitives

Modelled on character lists (structural recursion, so they evaluate in the
kernel). Whitespace is the ASCII set, which covers every character the
metrics-specification language uses. -/

/-- Generic split at every character satisfying `p`, keeping empty pieces:
`splitOnP (· == '=') "a==b"` is `["a", "", "b"]`. Models Python
`str.split(sep)` when `p` tests for the one-character separator `sep`. -/
def splitOnPAux (p : Char → Bool) : List Char → List Char → List (List Char)
  | [], acc => [acc.reverse]
  | a :: rest, acc =>
    if p a then acc.reverse :: splitOnPAux p rest []
    else splitOnPAux p rest (a :: acc)

def splitOnP (p : Char → Bool) (l : List Char) : List (List Char) :=
  splitOnPAux p l []

/-- Python `str.split()` with no argument: split on whitespace runs, never
yielding empty pieces. -/
def pySplitWS (l : List Char) : List (List Char) :=
  (splitOnP Char.isWhitespace l).filter (fun t => ¬ t.isEmpty)

/-- Python `str.strip()`: drop leading and trailing whitespace. -/
def pyStrip (l : List Char) : List Char :=
  ((l.dropWhile Char.isWhitespace).reverse.dropWhile Char.isWhitespace).reverse

/-- Python `str.startswith("#")`. -/
def startsWithHash : List Char → Bool
  | [] => false
  | a :: _ => a == '#'

/-- Join pieces with a single separator character (Python `sep.join`). -/
def intercalateChar (c : Char) : List (List Char) → List Char
  | [] => []
  | [x] => x
  | x :: y :: rest => x ++ c :: intercalateChar c (y :: rest)

/-! ### SpecParser (`parse_metrics_spec`, lines 150-166) -/

/-- First phase of `parse_metrics_spec` (lines 151-159): split the text into
lines, strip each, skip empty lines and lines starting with `#`, and append
the whitespace-separated non-empty tokens of the remaining lines in order.
Python `splitlines` also recognizes `\r`-style terminators; stripping each
line plus the blank-line skip makes splitting on `\n` alone equivalent. -/
def specTokens (spec : List Char) : List (List Char) :=
  (splitOnP (fun c => c == '\n') spec).foldl (fun lines raw =>
    let s := pyStrip raw
    if s.isEmpty || startsWithHash s then lines
    else (pySplitWS s).foldl
      (fun ls token => if token.isEmpty then ls else ls ++ [token]) lines) []

/-- Python `labeled_cmd.split("=", 1)`: split at the first `=` only. -/
def splitFirstEq (tok : List Char) : List Char × List Char :=
  match splitOnP (fun c => c == '=') tok with
  | [] => (tok, [])
  | x :: rest => (x, intercalateChar '=' rest)

/-- Second phase of `parse_metrics_spec` (lines 160-166) applied to one
token: a token without `=` is dropped, otherwise it is stripped, split at the
first `=`, and both halves are stripped. -/
def entryOfToken (tok : List Char) : Option (String × String) :=
  if tok.contains '=' then
    some ((pyStrip (splitFirstEq (pyStrip tok)).1).asString,
          (pyStrip (splitFirstEq (pyStrip tok)).2).asString)
  else none

/-- One iteration of the second loop of `parse_metrics_spec`: append the
token's entry when it has one (`continue` otherwise). -/
def entryStep (out : List (String × String)) (tok : List Char) : List (String × String) :=
  match entryOfToken tok with
  | some e => out ++ [e]
  | none => out

/-- `parse_metrics_spec` (lines 150-166), with the second loop kept in the
source's accumulating form. -/
def parse_metrics_spec (spec : String) : List (String × String) :=
  (specTokens spec.toList).foldl entryStep []

/-- The claim's description of the parser output: one entry per token that
contains `=`, in token order. -/
def parseMetricsSpecClaim (spec : String) : List (String × String) :=
  (specTokens spec.toList).filterMap entryOfToken

theorem foldl_entryStep_filterMap :
    ∀ (l : List (List Char)) (acc : List (String × String)),
      l.foldl entryStep acc = acc ++ l.filterMap entryOfToken := by
  intro l
  induction l with
  | nil => intro acc; simp
  | cons a t ih =>
    intro acc
    simp only [List.foldl_cons, List.filterMap_cons]
    cases h : entryOfToken a with
    | none => simp [entryStep, h, ih acc]
    | some e => simp [entryStep, h, ih (acc ++ [e])]

/-- C5: the parser returns one (label, command) entry per token containing
`=`, in token order; blank lines and `#` lines contribute nothing and a
token lacking `=` is silently dropped (both phases are part of the shared
tokenization); each retained token is split at its first `=` only, so the
command part may itself contain `=`, as the closed second conjunct shows on
a spec with a comment line, a blank line, a stray token and a command
containing `=`. -/
theorem parse_metrics_spec_entries :
    (∀ spec : String, parse_metrics_spec spec = parseMetricsSpecClaim spec) ∧
      parse_metrics_spec "# comment line\n\nm1=parse(\"/v1/x\",\"a=b\") stray\nm2=FAILED_PAYMENTS\n"
        = [("m1", "parse(\"/v1/x\",\"a=b\")"), ("m2", "FAILED_PAYMENTS")] := by
  constructor
  · intro spec
    unfold parse_metrics_spec parseMetricsSpecClaim
    simpa using foldl_entryStep_filterMap (specTokens spec.toList) []
  · decide

/-! ### CommandResolver (`make_metric_function`, lines 143-147, and the
registration loop, lines 170-182) -/

/-- The deferred closure `lambda: eval(f"lnd.{cmd}")` built by
`make_metric_function`: the command string is interpreted against the client
object only when the closure is called, at scrape time. -/
inductive DeferredCall where
  | evalOnLnd (cmd : String)
deriving DecidableEq

/-- Models `make_metric_function` (lines 143-147). The `try` block only
creates the lambda; creating a closure never raises in Python (the command
string is neither parsed nor evaluated until the closure is called), so the
function returns the closure for every command string and the `except`
branch returning `None` is unreachable. -/
def make_metric_function (cmd : String) : Option DeferredCall :=
  some (.evalOnLnd cmd)

/-- A metric object installed by the registration loop. -/
inductive MetricObject where
  | htlcCollector
  | failedPaymentsCollector
  | gauge (label : String) (fn : DeferredCall)
deriving DecidableEq

/-- One iteration of the registration loop (lines 170-182): classify the
command and install the corresponding object, or fail with the
"Unsupported metric command" RuntimeError when `make_metric_function`
returned `None`. -/
def registerMetric (label cmd : String) : Except String MetricObject :=
  if cmd = "PENDING_HTLCS" then .ok .htlcCollector
  else if cmd = "FAILED_PAYMENTS" then .ok .failedPaymentsCollector
  else
    match make_metric_function cmd with
    | none => .error ("Unsupported metric command: " ++ label ++ "=" ++ cmd)
    | some fn => .ok (.gauge label fn)

/-- C1 (refuted; code bug): startup resolution never raises for any command
shape. Because `make_metric_function` wraps only the creation of the lambda
in `try`, it never returns `None`, the "Unsupported metric command" branch
is unreachable, and every unrecognized command (here the concrete "bar") is
installed as a gauge binding whose evaluation is deferred to scrape time,
contrary to the fail-fast comment in the source and to the claim. -/
theorem registerMetric_installs_unrecognized :
    (∀ label cmd : String, ∃ b, registerMetric label cmd = .ok b) ∧
      registerMetric "foo" "bar" = .ok (.gauge "foo" (.evalOnLnd "bar")) := by
  constructor
  · intro label cmd
    unfold registerMetric make_metric_function
    by_cases h1 : cmd = "PENDING_HTLCS"
    · exact ⟨.htlcCollector, by simp [h1]⟩
    · by_cases h2 : cmd = "FAILED_PAYMENTS"
      · exact ⟨.failedPaymentsCollector, by simp [h1, h2]⟩
      · exact ⟨.gauge label (.evalOnLnd cmd), by simp [h1, h2]⟩
  · rfl

/-! ### RestClient (`LND.get`, lines 77-105)

The remote node is modelled as a function `env` from the attempt index
(0-based, counting the requests this call makes) to what that request
produced. Wall-clock time is the value `now` that `time.time()` returns.
The heartbeat gauge `LAST_SUCCESS` is threaded through explicitly as an
`Option Nat` (its value before the call, `none` if never set). -/

/-- What one attempted request produced: a response with an HTTP status and
a body, or an exception on the transport path (connect or read timeout,
connection reset). -/
inductive Attempt where
  | response (status : Nat) (body : String)
  | transportError (msg : String)

/-- The exception recorded in `last_exc` by one failed attempt: the
RuntimeError raised for a status >= 400 (carrying the status, the uri and
the first 200 characters of the body, line 93), or the transport exception
itself. -/
inductive GetError where
  | httpError (status : Nat) (uri : String) (bodyClip : String)
  | transport (msg : String)

/-- Python `body[:200]`. -/
def pyClip (s : String) (n : Nat) : String := (s.toList.take n).asString

/-- Whether the attempt lands in the `except` block of the loop body. -/
def attemptFails : Attempt → Bool
  | .response status _ => 400 ≤ status
  | .transportError _ => true

/-- The exception `e` a failing attempt contributes as `last_exc`. -/
def errOf (uri : String) : Attempt → GetError
  | .response status body => .httpError status uri (pyClip body 200)
  | .transportError msg => .transport msg

/-- The body a successful attempt returns (placeholder on the transport
error constructor, which never succeeds). -/
def bodyOf : Attempt → String
  | .response _ body => body
  | .transportError _ => ""

/-- Result of one `get` call: how many requests it issued, the heartbeat
value after the call, and either the returned body or the final
RequestExhausted RuntimeError carrying `last_exc` (line 105; `none` when
the loop made no attempt at all). -/
structure GetOutcome where
  requestCount : Nat
  heartbeat : Option Nat
  result : Except (Option GetError) String

/-- The retry loop of `get` (lines 79-104): `i` is the index of the next
attempt, the second argument the number of attempts left out of
`self.retries`. Each iteration issues one request; a status < 400 sets the
heartbeat to the current time and returns the body; otherwise the exception
becomes `last_exc` and the loop continues (after the unconditional
`time.sleep`, which has no observable effect here). -/
def getLoop (env : Nat → Attempt) (now : Nat) (uri : String) :
    Nat → Nat → Option GetError → Option Nat → GetOutcome
  | i, 0, lastExc, hb => ⟨i, hb, .error lastExc⟩
  | i, remaining + 1, lastExc, hb =>
    match env i with
    | .response status body =>
      if 400 ≤ status then
        getLoop env now uri (i + 1) remaining
          (some (.httpError status uri (pyClip body 200))) hb
      else
        ⟨i + 1, some now, .ok body⟩
    | .transportError msg =>
      getLoop env now uri (i + 1) remaining (some (.transport msg)) hb

/-- `LND.get` (lines 77-105): run the loop for `retries` attempts starting
from the heartbeat value `hb`. -/
def LND.get (env : Nat → Attempt) (now : Nat) (retries : Nat) (uri : String)
    (hb : Option Nat) : GetOutcome :=
  getLoop env now uri 0 retries none hb

theorem getLoop_allFail (env : Nat → Attempt) (now : Nat) (uri : String) :
    ∀ (r i : Nat) (lastExc : Option GetError) (hb : Option Nat),
      (∀ j, i ≤ j → j < i + r → attemptFails (env j) = true) →
      getLoop env now uri i r lastExc hb =
        ⟨i + r, hb,
          .error (if r = 0 then lastExc else some (errOf uri (env (i + r - 1))))⟩ := by
  intro r
  induction r with
  | zero => intro i lastExc hb _; simp [getLoop]
  | succ n ih =>
    intro i lastExc hb hfail
    have hi : attemptFails (env i) = true := hfail i (Nat.le_refl i) (by omega)
    have hrest : ∀ j, i + 1 ≤ j → j < i + 1 + n → attemptFails (env j) = true :=
      fun j h1 h2 => hfail j (by omega) (by omega)
    cases henv : env i with
    | response status body =>
      have hs : 400 ≤ status := by
        have := hi
        rw [henv] at this
        simpa [attemptFails] using this
      rw [getLoop]
      simp only [henv, if_pos hs]
      rw [ih (i + 1) (some (.httpError status uri (pyClip body 200))) hb hrest]
      rcases Nat.eq_zero_or_pos n with hn | hn
      · subst hn
        simp [henv, errOf]
      · have h1 : i + 1 + n = i + (n + 1) := by omega
        rw [if_neg (by omega), if_neg (by omega), h1]
    | transportError msg =>
      rw [getLoop]
      simp only [henv]
      rw [ih (i + 1) (some (.transport msg)) hb hrest]
      rcases Nat.eq_zero_or_pos n with hn | hn
      · subst hn
        simp [henv, errOf]
      · have h1 : i + 1 + n = i + (n + 1) := by omega
        rw [if_neg (by omega), if_neg (by omega), h1]

theorem getLoop_firstSuccess (env : Nat → Attempt) (now : Nat) (uri : String) :
    ∀ (k r i : Nat) (lastExc : Option GetError) (hb : Option Nat),
      k < r →
      (∀ j, j < k → attemptFails (env (i + j)) = true) →
      attemptFails (env (i + k)) = false →
      getLoop env now uri i r lastExc hb =
        ⟨i + k + 1, some now, .ok (bodyOf (env (i + k)))⟩ := by
  intro k
  induction k with
  | zero =>
    intro r i lastExc hb hkr _ hsucc
    obtain ⟨n, rfl⟩ : ∃ n, r = n + 1 := ⟨r - 1, by omega⟩
    rw [Nat.add_zero] at hsucc
    cases henv : env i with
    | response status body =>
      have hs : ¬ 400 ≤ status := by
        rw [henv] at hsucc
        simpa [attemptFails] using hsucc
      rw [getLoop]
      simp only [henv, if_neg hs]
      simp [henv, bodyOf]
    | transportError msg =>
      exfalso
      rw [henv] at hsucc
      simp [attemptFails] at hsucc
  | succ m ih =>
    intro r i lastExc hb hkr hpre hsucc
    obtain ⟨n, rfl⟩ : ∃ n, r = n + 1 := ⟨r - 1, by omega⟩
    have h0 : attemptFails (env i) = true := by
      have := hpre 0 (by omega)
      simpa using this
    have hpre' : ∀ j, j < m → attemptFails (env (i + 1 + j)) = true := by
      intro j hj
      have := hpre (j + 1) (by omega)
      have harith : i + (j + 1) = i + 1 + j := by omega
      rwa [harith] at this
    have hsucc' : attemptFails (env (i + 1 + m)) = false := by
      have harith : i + (m + 1) = i + 1 + m := by omega
      rwa [harith] at hsucc
    cases henv : env i with
    | response status body =>
      have hs : 400 ≤ status := by
        rw [henv] at h0
        simpa [attemptFails] using h0
      rw [getLoop]
      simp only [henv, if_pos hs]
      rw [ih n (i + 1) (some (.httpError status uri (pyClip body 200))) hb (by omega) hpre' hsucc']
      have h1 : i + 1 + m = i + (m + 1) := by omega
      rw [h1]
    | transportError msg =>
      rw [getLoop]
      simp only [henv]
      rw [ih n (i + 1) (some (.transport msg)) hb (by omega) hpre' hsucc']
      have h1 : i + 1 + m = i + (m + 1) := by omega
      rw [h1]

/-- C2: with maxRetries = n (n ≥ 1) against a remote that answers every
request with an HTTP status ≥ 400, `get` performs exactly n requests, then
fails with the RequestExhausted error carrying the failure of the last
attempt, and never returns a body. -/
theorem get_exhausts_on_http_errors (env : Nat → Attempt) (now : Nat) (uri : String)
    (hb : Option Nat) (n : Nat) (hn : 1 ≤ n)
    (hfail : ∀ i, i < n → ∃ status body, env i = .response status body ∧ 400 ≤ status) :
    (LND.get env now n uri hb).requestCount = n ∧
      (LND.get env now n uri hb).result = .error (some (errOf uri (env (n - 1)))) ∧
      ∀ body, (LND.get env now n uri hb).result ≠ .ok body := by
  have hfails : ∀ j, 0 ≤ j → j < 0 + n → attemptFails (env j) = true := by
    intro j _ hj
    obtain ⟨status, body, he, hs⟩ := hfail j (by omega)
    rw [he]
    simp [attemptFails]
    omega
  have h := getLoop_allFail env now uri n 0 none hb hfails
  unfold LND.get
  rw [h]
  refine ⟨by simp, ?_, by intro body; simp⟩
  simp only [Nat.zero_add]
  rw [if_neg (by omega)]

/-- Remote that answers every request with HTTP 500. -/
def envAllFail : Nat → Attempt := fun _ => .response 500 "boom"

theorem get_exhausts_on_http_errors_witness :
    (LND.get envAllFail 99 3 "/v1/getinfo" none).requestCount = 3 ∧
      (LND.get envAllFail 99 3 "/v1/getinfo" none).result
        = .error (some (errOf "/v1/getinfo" (envAllFail 2))) ∧
      ∀ body, (LND.get envAllFail 99 3 "/v1/getinfo" none).result ≠ .ok body :=
  get_exhausts_on_http_errors envAllFail 99 "/v1/getinfo" none 3 (by norm_num)
    (fun i _ => ⟨500, "boom", rfl, by norm_num⟩)

/-- C4: the heartbeat gauge is written iff a `get` call completes an attempt
with HTTP status < 400. First conjunct: when every attempt fails (transport
error or status ≥ 400), the heartbeat keeps its prior value and no body is
returned. Second conjunct: when the first k attempts fail and attempt k
succeeds, the heartbeat is set to the current wall-clock time and the body
of attempt k is returned. -/
theorem heartbeat_iff_success (env : Nat → Attempt) (now : Nat) (retries : Nat)
    (uri : String) (hb : Option Nat) :
    ((∀ i, i < retries → attemptFails (env i) = true) →
      (LND.get env now retries uri hb).heartbeat = hb ∧
        ∀ body, (LND.get env now retries uri hb).result ≠ .ok body) ∧
    (∀ k, k < retries → (∀ j, j < k → attemptFails (env j) = true) →
      attemptFails (env k) = false →
      (LND.get env now retries uri hb).heartbeat = some now ∧
        (LND.get env now retries uri hb).result = .ok (bodyOf (env k))) := by
  constructor
  · intro hall
    have hfails : ∀ j, 0 ≤ j → j < 0 + retries → attemptFails (env j) = true :=
      fun j _ hj => hall j (by omega)
    have h := getLoop_allFail env now uri retries 0 none hb hfails
    unfold LND.get
    rw [h]
    exact ⟨rfl, by intro body; simp⟩
  · intro k hk hpre hsucc
    have hpre' : ∀ j, j < k → attemptFails (env (0 + j)) = true := by
      intro j hj
      simpa using hpre j hj
    have hsucc' : attemptFails (env (0 + k)) = false := by simpa using hsucc
    have h := getLoop_firstSuccess env now uri k retries 0 none hb hk hpre' hsucc'
    unfold LND.get
    rw [h]
    exact ⟨rfl, by simp⟩

/-- Remote whose first request hits a transport timeout and whose second
request succeeds with HTTP 200. -/
def envFailThenOk : Nat → Attempt := fun i =>
  if i = 0 then .transportError "timeout" else .response 200 "body"

theorem heartbeat_iff_success_witness :
    ((LND.get envAllFail 99 2 "/v1/getinfo" (some 7)).heartbeat = some 7 ∧
      ∀ body, (LND.get envAllFail 99 2 "/v1/getinfo" (some 7)).result ≠ .ok body) ∧
    ((LND.get envFailThenOk 99 2 "/v1/getinfo" (some 7)).heartbeat = some 99 ∧
      (LND.get envFailThenOk 99 2 "/v1/getinfo" (some 7)).result
        = .ok (bodyOf (envFailThenOk 1))) := by
  constructor
  · exact (heartbeat_iff_success envAllFail 99 2 "/v1/getinfo" (some 7)).1
      (fun i _ => rfl)
  · exact (heartbeat_iff_success envFailThenOk 99 2 "/v1/getinfo" (some 7)).2 1
      (by norm_num) (fun j hj => by interval_cases j; rfl) rfl

/-! ### Client construction (`LND.__init__`, lines 64-67) -/

/-- Decimal digit accumulator for `pyIntOfString`. -/
def parseDigitsAux : List Char → Nat → Option Nat
  | [], acc => some acc
  | c :: rest, acc =>
    if c.isDigit then parseDigitsAux rest (acc * 10 + (c.toNat - '0'.toNat))
    else none

/-- Python `int(s)` on the canonical decimal string forms relevant here:
an optional minus sign followed by at least one digit. (Python's `int` also
tolerates surrounding whitespace, a plus sign and underscore separators;
none of those forms appear in the modelled configuration.) -/
def pyIntOfString (s : String) : Option Int :=
  match s.toList with
  | [] => none
  | '-' :: rest =>
    match rest with
    | [] => none
    | _ => (parseDigitsAux rest 0).map (fun n => -(n : Int))
  | l => (parseDigitsAux l 0).map (fun n => (n : Int))

/-- The retries field set by `LND.__init__` (line 66):
`int(os.environ.get("LND_REST_RETRIES", "1"))`, with no lower bound
applied. `envVal` is the raw environment value, `none` when unset. -/
def lndInitRetries (envVal : Option String) : Option Int :=
  pyIntOfString (envVal.getD "1")

/-- C9 (refuted): the environment value "0" is parsed and stored as-is, so
the constructed configuration has retries = 0, violating the claimed
invariant maxRetries ≥ 1. -/
theorem lndInitRetries_zero :
    lndInitRetries (some "0") = some 0 ∧ ¬ (1 ≤ (0 : Int)) :=
  ⟨rfl, by norm_num⟩

/-- C9 (amended): the retries field is exactly the parsed integer value of
`LND_REST_RETRIES` with no clamping; it is at least 1 whenever the variable
is unset (default "1") or set to a string parsing to an integer ≥ 1, but
nothing prevents smaller values. -/
theorem lndInitRetries_pos (envVal : Option String)
    (h : envVal = none ∨ ∃ s n, envVal = some s ∧ pyIntOfString s = some n ∧ 1 ≤ n) :
    ∃ n, lndInitRetries envVal = some n ∧ 1 ≤ n := by
  rcases h with h | ⟨s, n, hs, hp, hn⟩
  · refine ⟨1, ?_, by norm_num⟩
    rw [h]
    rfl
  · refine ⟨n, ?_, hn⟩
    rw [hs]
    simpa [lndInitRetries] using hp

theorem lndInitRetries_pos_witness :
    ∃ n, lndInitRetries none = some n ∧ 1 ≤ n :=
  lndInitRetries_pos none (Or.inl rfl)

/-! ### JSON values and the key-path descent (`LND.parse`, lines 107-112)

`json.loads` output is modelled by `Json`; numbers are `Nat` because every
number in the modelled payloads is a non-negative integer (LND sends 64-bit
ids as decimal strings and the collectors only produce counts). `get` and
`json.loads` themselves are modelled elsewhere / assumed: the descent is
specified for an already decoded body. -/

inductive Json where
  | null
  | bool (b : Bool)
  | num (n : Nat)
  | str (s : String)
  | arr (xs : List Json)
  | obj (fields : List (String × Json))

/-- Python `d[k]` / `d.get(k)` lookup on a decoded JSON object's fields. -/
def dictGet (fields : List (String × Json)) (k : String) : Option Json :=
  (fields.find? (fun p => p.1 == k)).map (fun p => p.2)

/-- The exception raised by `data[key]` inside the descent loop: a KeyError
naming the missing key on a dict, or a TypeError when `data` is not a dict
(string-indexing a list, a string, a number, a bool or None). -/
inductive PathError where
  | keyError (segment : String)
  | typeError (segment : String)

/-- The descent loop of `LND.parse` (lines 110-111): `for key in keys: data
= data[key]`. -/
def descendPath : Json → List String → Except PathError Json
  | data, [] => .ok data
  | data, key :: rest =>
    match data with
    | .obj fields =>
      match dictGet fields key with
      | some v => descendPath v rest
      | none => .error (.keyError key)
    | _ => .error (.typeError key)

/-- Python `result.split(".")` (line 110). -/
def keyPathOf (result : String) : List String :=
  (splitOnP (fun c => c == '.') result.toList).map List.asString

/-- `LND.parse` (lines 107-112) from the decoded body on: split the key
path on `.` and descend. -/
def parsePath (data : Json) (result : String) : Except PathError Json :=
  descendPath data (keyPathOf result)

theorem descendPath_append (l₁ : List String) : ∀ (data : Json) (l₂ : List String),
    descendPath data (l₁ ++ l₂) =
      match descendPath data l₁ with
      | .ok v => descendPath v l₂
      | .error e => .error e := by
  induction l₁ with
  | nil => intro data l₂; simp [descendPath]
  | cons key rest ih =>
    intro data l₂
    cases data with
    | obj fields =>
      cases h : dictGet fields key with
      | some v => simp [descendPath, h, ih v l₂]
      | none => simp [descendPath, h]
    | null => simp [descendPath]
    | bool b => simp [descendPath]
    | num n => simp [descendPath]
    | str s => simp [descendPath]
    | arr xs => simp [descendPath]

/-- C6: descending a key path from a decoded JSON object fails with a
KeyError naming the offending segment as soon as the current object lacks
that segment, whatever further segments follow, and never produces a
value. -/
theorem descendPath_missing_key (data : Json) (pre post : List String) (k : String)
    (fields : List (String × Json))
    (hpre : descendPath data pre = .ok (.obj fields))
    (hmiss : dictGet fields k = none) :
    descendPath data (pre ++ k :: post) = .error (.keyError k) ∧
      ∀ v, descendPath data (pre ++ k :: post) ≠ .ok v := by
  have h := descendPath_append pre data (k :: post)
  rw [hpre] at h
  rw [h]
  simp [descendPath, hmiss]

theorem descendPath_missing_key_witness :
    parsePath (.obj [("a", .obj [])]) "a.b" = .error (.keyError "b") ∧
      ∀ v, parsePath (.obj [("a", .obj [])]) "a.b" ≠ .ok v :=
  descendPath_missing_key (.obj [("a", .obj [])]) ["a"] [] "b" [] rfl rfl

/-! ### Collectors (HTLCCollector lines 118-128, FailedPaymentsCollector
lines 131-139), modelled from the decoded response body on -/

/-- One GaugeMetricFamily as yielded by a collector: its metric name, help
text, label names, and samples (label values with the sample value; all
sample values in the source are non-negative integer counts). -/
structure GaugeFamily where
  name : String
  help : String
  labelNames : List String
  samples : List (List String × Nat)

/-- Exceptions the collector bodies can raise while walking the payload:
TypeError (iterating or `len()` on a non-list, indexing a non-dict),
AttributeError (`.get` on a non-dict), KeyError (`channel["chan_id"]`
missing), ValueError (`int()` on a non-numeric string). -/
inductive CollectError where
  | typeErr
  | attrErr
  | keyErr (k : String)
  | valueErr (s : String)

/-- Python `payment.get("status") == "FAILED"` for a decoded JSON object:
true exactly when the status field holds the string "FAILED". -/
def paymentIsFailed : Json → Bool
  | .obj pf =>
    match dictGet pf "status" with
    | some (.str s) => s == "FAILED"
    | _ => false
  | _ => false

/-- One step of the failed-payment counting generator (line 136): a
non-dict payment raises AttributeError from `.get`. -/
def paymentFailedFlag : Json → Except CollectError Bool
  | .obj pf => .ok (paymentIsFailed (.obj pf))
  | _ => .error .attrErr

/-- `FailedPaymentsCollector.collect` (lines 131-139) from the decoded body
on: read `payments` (default `[]`), count entries whose status equals
"FAILED", and yield a single family with one unlabeled sample carrying the
count. -/
def FailedPaymentsCollector.collect (data : Json) : Except CollectError GaugeFamily :=
  match data with
  | .obj fields =>
    match (dictGet fields "payments").getD (.arr []) with
    | .arr payments => do
      let flags ← payments.mapM paymentFailedFlag
      pure ⟨"failed_payments", "Number of payments with status FAILED", [],
            [([], flags.count true)]⟩
    | _ => .error .typeErr
  | _ => .error .attrErr

/-- Python `int(v)` applied to a decoded JSON value (line 125). LND
serializes 64-bit channel ids as unsigned decimal strings, which is the
string form modelled; `int` of a bool is its 0/1 value, and `int` of a
list, dict or None raises TypeError. -/
def pyIntOfJson : Json → Except CollectError Nat
  | .num n => .ok n
  | .bool b => .ok (if b then 1 else 0)
  | .str s =>
    match s.toList with
    | [] => .error (.valueErr s)
    | l =>
      match parseDigitsAux l 0 with
      | some n => .ok n
      | none => .error (.valueErr s)
  | _ => .error .typeErr

/-- The body of the channel loop (lines 124-127) for one channel: read and
decode `chan_id`, build the scid label, and count the `pending_htlcs` list
(default `[]`). -/
def channelSample : Json → Except CollectError (List String × Nat)
  | .obj cf =>
    match dictGet cf "chan_id" with
    | none => .error (.keyErr "chan_id")
    | some v => do
      let chan_id ← pyIntOfJson v
      match (dictGet cf "pending_htlcs").getD (.arr []) with
      | .arr hs => pure ([shortId chan_id], hs.length)
      | _ => .error .typeErr
  | _ => .error .typeErr

/-- `HTLCCollector.collect` (lines 118-128) from the decoded body on: read
`channels` (default `[]`) and emit one sample per channel. -/
def HTLCCollector.collect (data : Json) : Except CollectError GaugeFamily :=
  match data with
  | .obj fields =>
    match (dictGet fields "channels").getD (.arr []) with
    | .arr channels => do
      let samples ← channels.mapM channelSample
      pure ⟨"pending_htlcs", "pending HTLCs", ["scid"], samples⟩
    | _ => .error .typeErr
  | _ => .error .attrErr

theorem count_true_map (f : Json → Bool) (l : List Json) :
    (l.map f).count true = l.countP f := by
  induction l with
  | nil => rfl
  | cons a t ih =>
    simp only [List.map_cons, List.count_cons, List.countP_cons, ih]
    cases f a <;> simp

theorem mapM_paymentFailedFlag (payments : List Json)
    (hobj : ∀ p ∈ payments, ∃ pf, p = .obj pf) :
    payments.mapM paymentFailedFlag = .ok (payments.map paymentIsFailed) := by
  induction payments with
  | nil => rfl
  | cons p rest ih =>
    obtain ⟨pf, rfl⟩ := hobj p (by simp)
    rw [List.mapM_cons, ih (fun q hq => hobj q (by simp [hq]))]
    rfl

/-- C7: for a payload whose `payments` key holds a list of objects (or is
absent, in which case the list is empty and no error is raised), the
collector succeeds and emits exactly one unlabeled sample whose value is
the number of entries with status "FAILED". -/
theorem failedPayments_count (fields : List (String × Json)) (payments : List Json)
    (hpay : dictGet fields "payments" = some (.arr payments) ∨
            (dictGet fields "payments" = none ∧ payments = []))
    (hobj : ∀ p ∈ payments, ∃ pf, p = .obj pf) :
    FailedPaymentsCollector.collect (.obj fields) =
      .ok ⟨"failed_payments", "Number of payments with status FAILED", [],
           [([], payments.countP paymentIsFailed)]⟩ := by
  have hm := mapM_paymentFailedFlag payments hobj
  rcases hpay with hp | ⟨hp, rfl⟩
  · rw [FailedPaymentsCollector.collect, hp]
    simp only [Option.getD_some]
    rw [hm]
    simp [count_true_map]
  · rw [FailedPaymentsCollector.collect, hp]
    rfl

/-- The failed-payment counting example: statuses FAILED, SUCCEEDED,
FAILED. -/
def paymentsExample : List Json :=
  [.obj [("status", .str "FAILED")],
   .obj [("status", .str "SUCCEEDED")],
   .obj [("status", .str "FAILED")]]

theorem failedPayments_count_witness :
    (FailedPaymentsCollector.collect (.obj [("payments", .arr paymentsExample)]) =
      .ok ⟨"failed_payments", "Number of payments with status FAILED", [],
           [([], paymentsExample.countP paymentIsFailed)]⟩ ∧
      paymentsExample.countP paymentIsFailed = 2) ∧
    FailedPaymentsCollector.collect (.obj [("channels", .arr [])]) =
      .ok ⟨"failed_payments", "Number of payments with status FAILED", [],
           [([], 0)]⟩ := by
  constructor
  · constructor
    · exact failedPayments_count [("payments", .arr paymentsExample)] paymentsExample
        (Or.inl rfl)
        (by
          intro p hp
          simp only [paymentsExample, List.mem_cons, List.not_mem_nil, or_false] at hp
          rcases hp with rfl | rfl | rfl <;> exact ⟨_, rfl⟩)
    · rfl
  · exact failedPayments_count [("channels", .arr [])] [] (Or.inr ⟨rfl, rfl⟩)
      (by intro p hp; simp at hp)

/-- Shape of a well-formed channel record together with the sample the loop
body produces for it: a decoded object with a decodable `chan_id` and a
list (or absent) `pending_htlcs`, yielding the scid label and the pending
count. -/
def channelShape (channel : Json) (sample : List String × Nat) : Prop :=
  ∃ cf v chan_id hs,
    channel = .obj cf ∧ dictGet cf "chan_id" = some v ∧
    pyIntOfJson v = .ok chan_id ∧
    (dictGet cf "pending_htlcs").getD (.arr []) = .arr hs ∧
    sample = ([shortId chan_id], hs.length)

theorem channelShape_sample {c : Json} {s : List String × Nat}
    (h : channelShape c s) : channelSample c = .ok s := by
  obtain ⟨cf, v, chan_id, hs, rfl, hv, hint, hpend, rfl⟩ := h
  rw [channelSample, hv]
  simp only [hint, hpend]
  rfl

theorem mapM_channelSample (channels : List Json)
    (hwf : ∀ c ∈ channels, ∃ s, channelShape c s) :
    ∃ samples, channels.mapM channelSample = .ok samples ∧
      List.Forall₂ channelShape channels samples := by
  induction channels with
  | nil => exact ⟨[], rfl, List.Forall₂.nil⟩
  | cons c rest ih =>
    obtain ⟨s, hcs⟩ := hwf c (by simp)
    obtain ⟨samples, hm, hf⟩ := ih (fun q hq => hwf q (by simp [hq]))
    refine ⟨s :: samples, ?_, List.Forall₂.cons hcs hf⟩
    rw [List.mapM_cons, channelShape_sample hcs, hm]
    rfl

/-- C8: for a payload whose `channels` key holds a list of well-formed
channel records (or is absent, in which case the list is empty), the
collector succeeds with the family `pending_htlcs` labeled by `scid` and
emits exactly one sample per channel, in order, each labeled with that
channel's short channel id and valued at its pending-HTLC count; an empty
channel list yields zero samples and no error. -/
theorem htlc_collect_samples (fields : List (String × Json)) (channels : List Json)
    (hch : dictGet fields "channels" = some (.arr channels) ∨
           (dictGet fields "channels" = none ∧ channels = []))
    (hwf : ∀ c ∈ channels, ∃ s, channelShape c s) :
    ∃ fam, HTLCCollector.collect (.obj fields) = .ok fam ∧
      fam.name = "pending_htlcs" ∧ fam.labelNames = ["scid"] ∧
      List.Forall₂ channelShape channels fam.samples := by
  obtain ⟨samples, hm, hf⟩ := mapM_channelSample channels hwf
  refine ⟨⟨"pending_htlcs", "pending HTLCs", ["scid"], samples⟩, ?_, rfl, rfl, hf⟩
  rcases hch with hc | ⟨hc, rfl⟩
  · rw [HTLCCollector.collect, hc]
    simp only [Option.getD_some]
    rw [hm]
    rfl
  · cases hf
    rw [HTLCCollector.collect, hc]
    rfl

/-- The HTLC aggregation example: two channels, ids 0x0000010000020003 (as
the decimal string LND sends) and 0x0000020000030004 (as a number), with 0
and 3 pending HTLCs. -/
def channelsExample : List Json :=
  [.obj [("chan_id", .str "1099511758851")],
   .obj [("chan_id", .num 2199023452164),
         ("pending_htlcs", .arr [.null, .null, .null])]]

theorem htlc_collect_samples_witness :
    ∃ fam, HTLCCollector.collect (.obj [("channels", .arr channelsExample)]) = .ok fam ∧
      fam.name = "pending_htlcs" ∧ fam.labelNames = ["scid"] ∧
      List.Forall₂ channelShape channelsExample fam.samples := by
  refine htlc_collect_samples [("channels", .arr channelsExample)] channelsExample
    (Or.inl rfl) ?_
  intro c hc
  simp only [channelsExample, List.mem_cons, List.not_mem_nil, or_false] at hc
  rcases hc with rfl | rfl
  · exact ⟨([shortId 1099511758851], 0),
      [("chan_id", .str "1099511758851")], .str "1099511758851", 1099511758851, [],
      rfl, rfl, rfl, rfl, rfl⟩
  · exact ⟨([shortId 2199023452164], 3),
      [("chan_id", .num 2199023452164), ("pending_htlcs", .arr [.null, .null, .null])],
      .num 2199023452164, 2199023452164, [.null, .null, .null], rfl, rfl, rfl, rfl, rfl⟩

end LndExporter
